import Mathlib

/-
Verification development for the `mog` package (a convenience facade over the
MongoDB Go driver, file `mog.go`).

Shallow embedding conventions:
* Go `error` values are `Option String` (`none` = Go `nil`).
* A Go run-time panic (nil dereference, out-of-range slice) is modelled by an
  operation returning `none` in an outer `Option`.
* The backing store (the mongo driver) is opaque: each operation that contacts
  it takes the store's response as an explicit argument and the embedding
  records both what was sent to the store (the request/options objects built
  by the facade) and what the facade hands back to its caller.
* Go maps (`bson.M`) are association lists with overwrite-on-insert; Go `nil`
  slices and maps are identified with the empty list except where the source
  distinguishes them (`projectFlds`, where `nil` disables projection, is an
  `Option`).
-/

set_option autoImplicit false

/- BSON-like opaque values: enough structure for the documents the facade
   itself builds (criteria wrappers, pipeline stages). -/
inductive BVal where
  | null : BVal
  | int : Int → BVal
  | str : String → BVal
  | doc : List (String × BVal) → BVal

/- Association-list lookup, Go-map style: first binding for the key wins
   (mapInsert keeps keys unique, so this is exactly Go map indexing). -/
def mapLookup {α : Type} : List (String × α) → String → Option α
  | [], _ => none
  | (k, v) :: rest, key => if key = k then some v else mapLookup rest key

/- Association-list insert with Go-map overwrite semantics (`m[k] = v`). -/
def mapInsert {α : Type} : List (String × α) → String → α → List (String × α)
  | [], k, v => [(k, v)]
  | (k0, v0) :: rest, k, v =>
      if k0 = k then (k, v) :: rest else (k0, v0) :: mapInsert rest k v

/- Outcome of decoding one record fetched from a cursor: `ok` when
   `cursor.Decode(doc)` succeeds, `bad e` when it returns error `e`. -/
inductive DecodeOutcome where
  | ok : DecodeOutcome
  | bad : String → DecodeOutcome
deriving DecidableEq, Repr

/- The driver's cursor (`*mongo.Cursor`), abstracted to what the facade
   observes: the remaining records (as decode outcomes), the terminal error
   reported by `Err()` at exhaustion, and whether `Close` was called. -/
structure Cursor where
  recs : List DecodeOutcome := []
  termErr : Option String := none
  closed : Bool := false
deriving DecidableEq, Repr

/- Response of `collection.Find` / `collection.Aggregate`: a cursor pointer
   (possibly nil) and an error (possibly nil). -/
structure FindResp where
  cursor : Option Cursor := none
  err : Option String := none
deriving DecidableEq, Repr

/- `mongo.WriteModel` entries built by BulkAddInsert / BulkAddUpdate. -/
inductive WriteModel where
  | insertOne : BVal → WriteModel
  | updateMany : Option BVal → Option BVal → WriteModel

/- The fields of `*mongo.UpdateResult` that `Update` reads. -/
structure UpdateResult where
  modifiedCount : Int := 0
  upsertedCount : Int := 0
deriving DecidableEq, Repr

/- The fields of `*mongo.BulkWriteResult` that `BulkWrite` reads. -/
structure BulkResult where
  insertedCount : Int := 0
  modifiedCount : Int := 0
deriving DecidableEq, Repr

/- `options.Find()`: the three option slots the facade ever sets. -/
structure FindOptions where
  sort : Option (List (String × Int)) := none
  projection : Option (List (String × Int)) := none
  limit : Option Int := none
deriving DecidableEq, Repr

/- `options.FindOne()`: sort and projection only (no limit slot is used). -/
structure FindOneOptions where
  sort : Option (List (String × Int)) := none
  projection : Option (List (String × Int)) := none
deriving DecidableEq, Repr

/- What `Find` / `FindAll` hand to `collection.Find`. -/
structure FindReq where
  criteria : BVal
  opts : FindOptions

/- What `FindOne` hands to `collection.FindOne` (criteria is passed through
   as-is, nil included). -/
structure FindOneReq where
  criteria : Option BVal
  opts : FindOneOptions

/- What `Count` hands to `collection.CountDocuments`. -/
structure CountReq where
  criteria : Option BVal
  limit : Option Int := none

/- The `Mog` struct (mog.go lines 46-61) restricted to the fields with
   facade-observable behaviour; the driver handles (`ctx`, `db`, `collection`,
   `collectionName`) and the csv fields are opaque external resources and
   carry no logic of this layer. Go zero values give the defaults. -/
structure Mog where
  projectFlds : Option (List (String × Int)) := none
  bulkWrites : List WriteModel := []
  iter : Option Cursor := none
  iterErr : Option String := none
  limit : Int := 0
  upsert : Bool := false
  AggPipeline : List (List (String × BVal)) := []

/- CreateSortOrder (mog.go 435-445). `keyFld[0:1]` panics on an empty token
   (slice bounds out of range), hence the `Option`: `none` = panic. For a
   non-empty token the first byte equals '-' exactly when the first character
   does ('-' is a single-byte code point), so `String.take 1` is faithful. -/
def sortElem (keyFld : String) : Option (String × Int) :=
  if keyFld = "" then none
  else if keyFld.take 1 = "-" then some (keyFld.drop 1, -1)
  else some (keyFld, 1)

def CreateSortOrder : List String → Option (List (String × Int))
  | [] => some []
  | keyFld :: rest =>
    match sortElem keyFld, CreateSortOrder rest with
    | some e, some d => some (e :: d)
    | _, _ => none

/- SetLimit (mog.go 83-85). -/
def Mog.SetLimit (mog : Mog) (limit : Int) : Mog := { mog with limit := limit }

/- Upsert (mog.go 88-90). -/
def Mog.Upsert (mog : Mog) : Mog := { mog with upsert := true }

/- Keep (mog.go 279-288): empty field list resets `projectFlds` to nil;
   otherwise a fresh map sending every listed field to 1. -/
def Mog.Keep (mog : Mog) (flds : List String) : Mog :=
  if flds = [] then { mog with projectFlds := none }
  else { mog with projectFlds := some (flds.foldl (fun m fld => mapInsert m fld 1) []) }

/- Omit (mog.go 293-302): same with marker 0. -/
def Mog.Omit (mog : Mog) (flds : List String) : Mog :=
  if flds = [] then { mog with projectFlds := none }
  else { mog with projectFlds := some (flds.foldl (fun m fld => mapInsert m fld 0) []) }

/- Find (mog.go 96-114). Builds findOptions (sort only when sortFlds were
   given, projection copied from the staged `projectFlds`, limit only when
   positive, consuming it), defaults nil criteria to `bson.D{{}}` (one empty
   element), calls the store and DISCARDS the store's error (`cursor, _ :=`),
   storing the possibly-nil cursor in `mog.iter`. Go returns nothing; the
   model returns the request sent plus the new state. Outer `none` = panic
   inside CreateSortOrder. -/
def Mog.Find (mog : Mog) (criteria : Option BVal) (sortFlds : List String)
    (resp : FindResp) : Option (FindReq × Mog) :=
  let sortStep : Option FindOptions :=
    if sortFlds.length > 0 then
      match CreateSortOrder sortFlds with
      | none => none
      | some sortOrder => some { sort := some sortOrder }
    else some {}
  match sortStep with
  | none => none
  | some findOptions0 =>
    let findOptions : FindOptions :=
      { findOptions0 with
          projection := mog.projectFlds,
          limit := if mog.limit > 0 then some mog.limit else none }
    let mog1 := if mog.limit > 0 then { mog with limit := 0 } else mog
    let crit := criteria.getD (BVal.doc [("", BVal.null)])
    some ({ criteria := crit, opts := findOptions }, { mog1 with iter := resp.cursor })

/- FindAll (mog.go 119-141). Same option building as Find but nil criteria
   defaults to `make(bson.D, 0)` (empty document); the store error is
   returned immediately when non-nil, otherwise `cursor.All`'s error
   (`allErr`) is returned; the cursor is not stored in the state. -/
def Mog.FindAll (mog : Mog) (criteria : Option BVal) (sortFlds : List String)
    (resp : FindResp) (allErr : Option String) :
    Option (FindReq × Option String × Mog) :=
  let sortStep : Option FindOptions :=
    if sortFlds.length > 0 then
      match CreateSortOrder sortFlds with
      | none => none
      | some sortOrder => some { sort := some sortOrder }
    else some {}
  match sortStep with
  | none => none
  | some findOptions0 =>
    let findOptions : FindOptions :=
      { findOptions0 with
          projection := mog.projectFlds,
          limit := if mog.limit > 0 then some mog.limit else none }
    let mog1 := if mog.limit > 0 then { mog with limit := 0 } else mog
    let crit := criteria.getD (BVal.doc [])
    let ret : Option String :=
      match resp.err with
      | some e => some e
      | none => allErr
    some ({ criteria := crit, opts := findOptions }, ret, mog1)

/- FindOne (mog.go 146-157). Sort/projection options only; criteria passed
   through unchanged (nil included); `decodeErr` is the error of
   `FindOne(...).Decode(doc)` (store or decode), returned verbatim. No state
   field is touched. -/
def Mog.FindOne (mog : Mog) (criteria : Option BVal) (sortFlds : List String)
    (decodeErr : Option String) : Option (FindOneReq × Option String × Mog) :=
  let sortStep : Option FindOneOptions :=
    if sortFlds.length > 0 then
      match CreateSortOrder sortFlds with
      | none => none
      | some sortOrder => some { sort := some sortOrder }
    else some {}
  match sortStep with
  | none => none
  | some findOptions0 =>
    some ({ criteria := criteria,
            opts := { findOptions0 with projection := mog.projectFlds } },
          decodeErr, mog)

/- FindId (mog.go 161-165): wraps the id in `bson.M{"_id": docId}` and
   returns the Decode error verbatim. -/
def Mog.FindId (mog : Mog) (docId : BVal) (decodeErr : Option String) :
    BVal × Option String × Mog :=
  (BVal.doc [("_id", docId)], decodeErr, mog)

/- Count (mog.go 200-208): applies and consumes a positive pending limit,
   passes criteria through as-is, and returns the store's (count, err) pair
   verbatim. -/
def Mog.Count (mog : Mog) (criteria : Option BVal) (resp : Int × Option String) :
    CountReq × (Int × Option String) × Mog :=
  let copts : Option Int := if mog.limit > 0 then some mog.limit else none
  let mog1 := if mog.limit > 0 then { mog with limit := 0 } else mog
  ({ criteria := criteria, limit := copts }, resp, mog1)

/- Update (mog.go 212-223). Nil criteria is rejected locally; otherwise the
   upsert flag is consumed, the store is called, and
   `changeInfo.ModifiedCount + changeInfo.UpsertedCount` is computed BEFORE
   any error check -- when the store hands back a nil result pointer this
   dereference panics (outer `none`). -/
def Mog.Update (mog : Mog) (criteria update : Option BVal)
    (resp : Option UpdateResult × Option String) :
    Option ((Int × Option String) × Mog) :=
  match criteria with
  | none => some ((0, some "nil criteria not allowed for update"), mog)
  | some _ =>
    let mog1 := if mog.upsert then { mog with upsert := false } else mog
    match resp.1 with
    | none => none
    | some changeInfo =>
      some ((changeInfo.modifiedCount + changeInfo.upsertedCount, resp.2), mog1)

/- Replace (mog.go 226-234): consumes the upsert flag, discards the store's
   result object, returns the store's error verbatim. -/
def Mog.Replace (mog : Mog) (criteria newDoc : Option BVal) (err : Option String) :
    Option String × Mog :=
  let mog1 := if mog.upsert then { mog with upsert := false } else mog
  (err, mog1)

/- UpdateId (mog.go 237-241): wraps the id in `bson.M{"_id": docId}`,
   discards the result object, returns the store's error verbatim. -/
def Mog.UpdateId (mog : Mog) (docId update : BVal) (err : Option String) :
    BVal × Option String × Mog :=
  (BVal.doc [("_id", docId)], err, mog)

/- Insert (mog.go 244-247): returns the store's error verbatim. -/
def Mog.Insert (mog : Mog) (docs : List BVal) (err : Option String) :
    Option String × Mog :=
  (err, mog)

/- BulkStart (mog.go 250-252): fresh empty batch (`size` is a capacity hint
   with no observable effect). -/
def Mog.BulkStart (mog : Mog) (size : Nat) : Mog := { mog with bulkWrites := [] }

/- BulkAddInsert (mog.go 255-259). -/
def Mog.BulkAddInsert (mog : Mog) (doc : BVal) : Mog :=
  { mog with bulkWrites := mog.bulkWrites ++ [WriteModel.insertOne doc] }

/- BulkAddUpdate (mog.go 262-267). -/
def Mog.BulkAddUpdate (mog : Mog) (criteria update : Option BVal) : Mog :=
  { mog with bulkWrites := mog.bulkWrites ++ [WriteModel.updateMany criteria update] }

/- BulkWrite (mog.go 270-274). Sends the whole accumulated batch, then
   unconditionally sets `mog.bulkWrites = nil` (before touching the result),
   then computes `result.InsertedCount + result.ModifiedCount` -- a panic
   when the result pointer is nil (`none` in the middle component). The model
   returns (batch sent, caller value or panic, state after the clearing
   assignment). -/
def Mog.BulkWrite (mog : Mog) (resp : Option BulkResult × Option String) :
    List WriteModel × Option (Int × Option String) × Mog :=
  (mog.bulkWrites,
   (match resp.1 with
    | none => none
    | some result => some (result.insertedCount + result.modifiedCount, resp.2)),
   { mog with bulkWrites := [] })

/- Runs a list of BulkAdd calls in order (a reference driver for stating
   batch-accumulation facts). -/
def addOps (mog : Mog) : List WriteModel → Mog
  | [] => mog
  | WriteModel.insertOne d :: rest => addOps (mog.BulkAddInsert d) rest
  | WriteModel.updateMany c u :: rest => addOps (mog.BulkAddUpdate c u) rest

/- Next (mog.go 172-186). `mog.iter.Next` on a nil iterator panics (`none`).
   At exhaustion: iterErr := iter.Err(), the cursor is closed, false.
   On a decode failure: iterErr := that error, false, cursor left open with
   the remaining records unread. Otherwise true. -/
def Mog.Next (mog : Mog) : Option (Bool × Mog) :=
  match mog.iter with
  | none => none
  | some cur =>
    match cur.recs with
    | [] =>
      some (false, { mog with iterErr := cur.termErr,
                              iter := some { cur with closed := true } })
    | DecodeOutcome.ok :: rest =>
      some (true, { mog with iter := some { cur with recs := rest } })
    | DecodeOutcome.bad e :: rest =>
      some (false, { mog with iterErr := some e,
                              iter := some { cur with recs := rest } })

/- IterErr (mog.go 189-191). -/
def Mog.IterErr (mog : Mog) : Option String := mog.iterErr

/- Number of records left on the current iterator (loop-termination measure). -/
def iterLen (mog : Mog) : Nat :=
  match mog.iter with
  | none => 0
  | some cur => cur.recs.length

/- The canonical caller loop `for mog.Next(&doc) { }`, stepped with explicit
   fuel; each true step consumes one record, so `iterLen mog + 1` steps always
   suffice (proved below: with that fuel the fuel-out branch is unreachable
   for a live iterator). -/
def nextLoopFuel : Nat → Mog → Option Mog
  | 0, _ => none
  | fuel + 1, mog =>
    match Mog.Next mog with
    | none => none
    | some (true, mog1) => nextLoopFuel fuel mog1
    | some (false, mog1) => some mog1

def nextLoop (mog : Mog) : Option Mog := nextLoopFuel (iterLen mog + 1) mog

/- First decode error in a record list, else the given terminal error: the
   value IterErr reports after a full Next loop. -/
def firstBadOr : List DecodeOutcome → Option String → Option String
  | [], t => t
  | DecodeOutcome.ok :: rest, t => firstBadOr rest t
  | DecodeOutcome.bad e :: _, _ => some e

/- AggStart (mog.go 360-362). -/
def Mog.AggStart (mog : Mog) : Mog := { mog with AggPipeline := [] }

/- AggStage (mog.go 368-372): appends the one-key stage `{"$"+op: opParms}`. -/
def Mog.AggStage (mog : Mog) (op : String) (opParms : List (String × BVal)) : Mog :=
  { mog with AggPipeline := mog.AggPipeline ++ [[("$" ++ op, BVal.doc opParms)]] }

/- AggLookupId (mog.go 377-385): a $lookup stage joining localField against
   the foreign collection's `_id`, then an $unwind stage on `"$" + asName`. -/
def Mog.AggLookupId (mog : Mog) (fromCollection localField asName : String) : Mog :=
  let mog1 := mog.AggStage "lookup"
    [("from", BVal.str fromCollection),
     ("localField", BVal.str localField),
     ("foreignField", BVal.str "_id"),
     ("as", BVal.str asName)]
  { mog1 with AggPipeline := mog1.AggPipeline ++ [[("$unwind", BVal.str ("$" ++ asName))]] }

/-- Modelled from the spec: the repository's current AggLookupId takes the
result name as an optional trailing argument which "defaults to the foreign
collection's name" when omitted; that current definition is missing from the
src snapshot (src/mog.go holds an older three-argument form, while the
README and the examples file only call the optional-argument variant). The
stage construction below is the src AggLookupId; only the defaulting wrapper
follows the spec's words. -/
def Mog.AggLookupIdOpt (mog : Mog) (fromCollection localField : String)
    (resultName : Option String) : Mog :=
  mog.AggLookupId fromCollection localField (resultName.getD fromCollection)

/- AggSort (mog.go 400-405): `$sort` stage from CreateSortOrder (so an empty
   sort token panics here too); the bson.D sort order is embedded as an
   ordered document of integer directions. -/
def Mog.AggSort (mog : Mog) (keyFlds : List String) : Option Mog :=
  match CreateSortOrder keyFlds with
  | none => none
  | some sortOrder =>
    some { mog with AggPipeline :=
      mog.AggPipeline ++ [[("$sort", BVal.doc (sortOrder.map (fun p => (p.1, BVal.int p.2))))]] }

/- AggRun (mog.go 412-420): stores the (possibly nil) cursor in `mog.iter`
   and returns the store's error verbatim. -/
def Mog.AggRun (mog : Mog) (resp : FindResp) : Option String × Mog :=
  (resp.err, { mog with iter := resp.cursor })

/-- Spec-shaped translation of one sort token, written from the claim's words
("a token beginning with a minus sign yields the pair (token with the leading
minus removed, -1); any other token yields (token, 1)"), kept separate from
the source-derived `sortElem` so the two can be compared. -/
def sortPairOfToken (t : String) : String × Int :=
  if t.take 1 = "-" then (t.drop 1, -1) else (t, 1)

/- ------------------------------------------------------------------ -/
/- Helper lemmas                                                       -/
/- ------------------------------------------------------------------ -/

theorem mapLookup_mapInsert {α : Type} (m : List (String × α)) (k key : String) (v : α) :
    mapLookup (mapInsert m k v) key = if key = k then some v else mapLookup m key := by
  induction m with
  | nil => simp [mapInsert, mapLookup]
  | cons hd tl ih =>
    obtain ⟨k0, v0⟩ := hd
    by_cases h0 : k0 = k
    · subst h0
      by_cases hk : key = k0 <;> simp [mapInsert, mapLookup, hk]
    · by_cases hk : key = k0 <;> by_cases hk2 : key = k <;>
        simp_all [mapInsert, mapLookup]

theorem mapLookup_foldl_insert {α : Type} (v : α) :
    ∀ (flds : List String) (init : List (String × α)) (f : String),
      mapLookup (flds.foldl (fun m fld => mapInsert m fld v) init) f
        = if f ∈ flds then some v else mapLookup init f := by
  intro flds
  induction flds with
  | nil => intro init f; simp
  | cons a rest ih =>
    intro init f
    simp only [List.foldl_cons]
    rw [ih]
    by_cases hf : f ∈ rest
    · simp [hf]
    · by_cases hfa : f = a
      · subst hfa; simp [hf, mapLookup_mapInsert]
      · simp [hf, hfa, mapLookup_mapInsert]

theorem sortElem_of_ne (t : String) (h : t ≠ "") :
    sortElem t = some (sortPairOfToken t) := by
  unfold sortElem sortPairOfToken
  rw [if_neg h]
  split <;> rfl

theorem createSortOrder_eq_map :
    ∀ l : List String, (∀ t ∈ l, t ≠ "") →
      CreateSortOrder l = some (l.map sortPairOfToken) := by
  intro l
  induction l with
  | nil => intro _; rfl
  | cons a rest ih =>
    intro h
    have ha : a ≠ "" := h a (List.mem_cons_self a rest)
    have hr := ih (fun t ht => h t (List.mem_cons_of_mem a ht))
    simp [CreateSortOrder, sortElem_of_ne a ha, hr]

theorem createSortOrder_none_of_mem :
    ∀ l : List String, "" ∈ l → CreateSortOrder l = none := by
  intro l
  induction l with
  | nil => intro h; simp at h
  | cons a rest ih =>
    intro h
    rcases List.mem_cons.mp h with h1 | h2
    · cases hc : CreateSortOrder rest <;>
        simp [CreateSortOrder, sortElem, ← h1, hc]
    · cases hse : sortElem a <;> simp [CreateSortOrder, hse, ih h2]

theorem firstBadOr_eq_none :
    ∀ (l : List DecodeOutcome) (t : Option String),
      firstBadOr l t = none ↔ (∀ r ∈ l, r = DecodeOutcome.ok) ∧ t = none := by
  intro l
  induction l with
  | nil => intro t; simp [firstBadOr]
  | cons r rest ih =>
    intro t
    cases r with
    | ok => simp [firstBadOr, ih]
    | bad e => simp [firstBadOr]

theorem addOps_bulkWrites :
    ∀ (ops : List WriteModel) (mog : Mog),
      (addOps mog ops).bulkWrites = mog.bulkWrites ++ ops := by
  intro ops
  induction ops with
  | nil => intro mog; simp [addOps]
  | cons op rest ih =>
    intro mog
    cases op with
    | insertOne d => simp [addOps, ih, Mog.BulkAddInsert]
    | updateMany c u => simp [addOps, ih, Mog.BulkAddUpdate]

/- ------------------------------------------------------------------ -/
/- Claim theorems                                                      -/
/- ------------------------------------------------------------------ -/

/-- C4 (counterexample): the claim quantifies over every list of sort tokens,
but on the concrete input `[""]` CreateSortOrder panics (`none`) instead of
producing the one-element specification `[("", 1)]` that the claim's "any
other token yields (token, 1)" clause requires. -/
theorem createsortorder_empty_token_counterexample :
    CreateSortOrder [""] = none ∧ CreateSortOrder [""] ≠ some [("", 1)] := by
  decide

/-- C4 (amended): for every list of NON-EMPTY sort tokens, CreateSortOrder
produces the same-length specification whose element at position i comes from
the token at position i — a token beginning with a minus sign yields (token
with the leading minus removed, -1), any other token yields (token, 1) — with
tokens neither reordered nor deduplicated (equality with the pointwise
translation `List.map sortPairOfToken`). -/
theorem createsortorder_nonempty_tokens_spec (l : List String)
    (h : ∀ t ∈ l, t ≠ "") :
    CreateSortOrder l = some (l.map sortPairOfToken) :=
  createSortOrder_eq_map l h

/-- C4 (witness): the amended theorem evaluated on a concrete token list with
a descending token and a duplicated ascending token. -/
theorem createsortorder_nonempty_tokens_spec_witness :
    CreateSortOrder ["-city", "date_added", "date_added"]
      = some [("city", -1), ("date_added", 1), ("date_added", 1)] := by
  have h := createsortorder_nonempty_tokens_spec
    ["-city", "date_added", "date_added"] (by decide)
  exact h

/-- C5: Keep with a non-empty field list stages a projection mapping exactly
the listed fields to inclusion marker 1 and no others; Omit likewise with
exclusion marker 0; an empty field list resets the pending projection to
"no projection" (nil), and doing that on an already-reset facade is a no-op. -/
theorem keep_omit_projection_spec :
    (∀ (mog : Mog) (flds : List String), flds ≠ [] →
      ∃ m, (mog.Keep flds).projectFlds = some m ∧
        ∀ f, mapLookup m f = if f ∈ flds then some 1 else none)
  ∧ (∀ (mog : Mog) (flds : List String), flds ≠ [] →
      ∃ m, (mog.Omit flds).projectFlds = some m ∧
        ∀ f, mapLookup m f = if f ∈ flds then some 0 else none)
  ∧ (∀ mog : Mog, (mog.Keep []).projectFlds = none ∧ (mog.Omit []).projectFlds = none)
  ∧ (∀ mog : Mog, mog.projectFlds = none → mog.Keep [] = mog ∧ mog.Omit [] = mog) := by
  refine ⟨?_, ?_, ?_, ?_⟩
  · intro mog flds hne
    refine ⟨flds.foldl (fun m fld => mapInsert m fld 1) [], ?_, ?_⟩
    · simp [Mog.Keep, hne]
    · intro f
      rw [mapLookup_foldl_insert]
      simp [mapLookup]
  · intro mog flds hne
    refine ⟨flds.foldl (fun m fld => mapInsert m fld 0) [], ?_, ?_⟩
    · simp [Mog.Omit, hne]
    · intro f
      rw [mapLookup_foldl_insert]
      simp [mapLookup]
  · intro mog
    constructor <;> simp [Mog.Keep, Mog.Omit]
  · intro mog h
    cases mog
    constructor <;> simp_all [Mog.Keep, Mog.Omit]

/-- C5 (witness): Keep on a concrete two-field list. -/
theorem keep_omit_projection_spec_witness :
    ∃ m, (Mog.Keep {} ["city", "st"]).projectFlds = some m ∧
      ∀ f, mapLookup m f = if f ∈ ["city", "st"] then some 1 else none :=
  keep_omit_projection_spec.1 {} ["city", "st"] (by decide)

/-- C10: for every sort-token list containing the empty string, CreateSortOrder
panics (the unguarded `keyFld[0:1]` slice), and hence so does any Find,
FindAll, FindOne, or AggSort call supplied that token list; under the
precondition that every token is non-empty, CreateSortOrder is total. -/
theorem empty_sort_token_panics :
    (∀ l : List String, "" ∈ l → CreateSortOrder l = none)
  ∧ (∀ (mog : Mog) (criteria : Option BVal) (sortFlds : List String) (resp : FindResp),
      "" ∈ sortFlds → Mog.Find mog criteria sortFlds resp = none)
  ∧ (∀ (mog : Mog) (criteria : Option BVal) (sortFlds : List String)
        (resp : FindResp) (allErr : Option String),
      "" ∈ sortFlds → Mog.FindAll mog criteria sortFlds resp allErr = none)
  ∧ (∀ (mog : Mog) (criteria : Option BVal) (sortFlds : List String)
        (decodeErr : Option String),
      "" ∈ sortFlds → Mog.FindOne mog criteria sortFlds decodeErr = none)
  ∧ (∀ (mog : Mog) (keyFlds : List String), "" ∈ keyFlds → Mog.AggSort mog keyFlds = none)
  ∧ (∀ l : List String, (∀ t ∈ l, t ≠ "") → ∃ d, CreateSortOrder l = some d) := by
  refine ⟨createSortOrder_none_of_mem, ?_, ?_, ?_, ?_, ?_⟩
  · intro mog criteria sortFlds resp h
    have hlen : sortFlds.length > 0 := List.length_pos.mpr (List.ne_nil_of_mem h)
    simp [Mog.Find, hlen, createSortOrder_none_of_mem sortFlds h]
  · intro mog criteria sortFlds resp allErr h
    have hlen : sortFlds.length > 0 := List.length_pos.mpr (List.ne_nil_of_mem h)
    simp [Mog.FindAll, hlen, createSortOrder_none_of_mem sortFlds h]
  · intro mog criteria sortFlds decodeErr h
    have hlen : sortFlds.length > 0 := List.length_pos.mpr (List.ne_nil_of_mem h)
    simp [Mog.FindOne, hlen, createSortOrder_none_of_mem sortFlds h]
  · intro mog keyFlds h
    simp [Mog.AggSort, createSortOrder_none_of_mem keyFlds h]
  · intro l h
    exact ⟨_, createSortOrder_eq_map l h⟩

/-- C10 (witness): a Find supplied the empty sort token panics; CreateSortOrder
on a non-empty token succeeds. -/
theorem empty_sort_token_panics_witness :
    Mog.Find {} none [""] {} = none ∧ ∃ d, CreateSortOrder ["a"] = some d := by
  constructor
  · exact empty_sort_token_panics.2.1 {} none [""] {} (by decide)
  · exact empty_sort_token_panics.2.2.2.2.2 ["a"] (by decide)

/-- C2 (counterexample): on the concrete facade `Keep ["a"]` followed by a
Find, the pending projection is NOT reset to empty/default by the Find that
consumed it — the post-state still stages `[("a", 1)]` (second conjunct
refutes the claimed reset), and a second Find on the same facade sends that
same earlier projection to the store again (first conjunct). -/
theorem projection_not_reset_by_find :
    ((Mog.Find (Mog.Keep {} ["a"]) none [] {}).bind fun p =>
        (Mog.Find p.2 none [] {}).map fun q => q.1.opts.projection)
      = some (some [("a", 1)])
  ∧ (Mog.Find (Mog.Keep {} ["a"]) none [] {}).map (fun p => p.2.projectFlds)
      ≠ some none := by
  constructor
  · rfl
  · decide

/-- C2 (amended): the field projection staged by Keep or Omit is NOT
single-use: each of Find, FindAll and FindOne sends the currently staged
projection to the store and leaves `projectFlds` unchanged, so subsequent
finds on the same facade instance reuse it until a Keep or Omit call replaces
or resets it. -/
theorem projection_persists_until_reset :
    (∀ (mog : Mog) (criteria : Option BVal) (sortFlds : List String)
        (resp : FindResp) (req : FindReq) (mogA : Mog),
      Mog.Find mog criteria sortFlds resp = some (req, mogA) →
      req.opts.projection = mog.projectFlds ∧ mogA.projectFlds = mog.projectFlds)
  ∧ (∀ (mog : Mog) (criteria : Option BVal) (sortFlds : List String)
        (resp : FindResp) (allErr : Option String) (req : FindReq)
        (ret : Option String) (mogA : Mog),
      Mog.FindAll mog criteria sortFlds resp allErr = some (req, ret, mogA) →
      req.opts.projection = mog.projectFlds ∧ mogA.projectFlds = mog.projectFlds)
  ∧ (∀ (mog : Mog) (criteria : Option BVal) (sortFlds : List String)
        (decodeErr : Option String) (req : FindOneReq)
        (ret : Option String) (mogA : Mog),
      Mog.FindOne mog criteria sortFlds decodeErr = some (req, ret, mogA) →
      req.opts.projection = mog.projectFlds ∧ mogA = mog) := by
  refine ⟨?_, ?_, ?_⟩
  · intro mog criteria sortFlds resp req mogA h
    by_cases hl : sortFlds.length > 0
    · rcases hcs : CreateSortOrder sortFlds with _ | so
      · simp [Mog.Find, hl, hcs] at h
      · by_cases hm : mog.limit > 0 <;>
          · simp [Mog.Find, hl, hcs, hm] at h
            obtain ⟨h1, h2⟩ := h
            subst h1
            subst h2
            simp
    · by_cases hm : mog.limit > 0 <;>
        · simp [Mog.Find, hl, hm] at h
          obtain ⟨h1, h2⟩ := h
          subst h1
          subst h2
          simp
  · intro mog criteria sortFlds resp allErr req ret mogA h
    by_cases hl : sortFlds.length > 0
    · rcases hcs : CreateSortOrder sortFlds with _ | so
      · simp [Mog.FindAll, hl, hcs] at h
      · by_cases hm : mog.limit > 0 <;>
          · simp [Mog.FindAll, hl, hcs, hm] at h
            obtain ⟨h1, h2, h3⟩ := h
            subst h1
            subst h3
            simp
    · by_cases hm : mog.limit > 0 <;>
        · simp [Mog.FindAll, hl, hm] at h
          obtain ⟨h1, h2, h3⟩ := h
          subst h1
          subst h3
          simp
  · intro mog criteria sortFlds decodeErr req ret mogA h
    by_cases hl : sortFlds.length > 0
    · rcases hcs : CreateSortOrder sortFlds with _ | so
      · simp [Mog.FindOne, hl, hcs] at h
      · simp [Mog.FindOne, hl, hcs] at h
        obtain ⟨h1, h2, h3⟩ := h
        subst h1
        subst h3
        simp
    · simp [Mog.FindOne, hl] at h
      obtain ⟨h1, h2, h3⟩ := h
      subst h1
      subst h3
      simp

/-- C2 (amended, witness): the amended theorem applied to the concrete facade
`Keep ["a"]` with a trivial store response. -/
theorem projection_persists_until_reset_witness :
    ({ criteria := BVal.doc [("", BVal.null)],
       opts := { projection := some [("a", 1)] } } : FindReq).opts.projection
        = (Mog.Keep {} ["a"]).projectFlds
  ∧ ({ projectFlds := some [("a", 1)], iter := some {} } : Mog).projectFlds
        = (Mog.Keep {} ["a"]).projectFlds :=
  projection_persists_until_reset.1 (Mog.Keep {} ["a"]) none []
    { cursor := some {} } _ _ rfl

/-- C6: a positive limit staged by SetLimit is applied to exactly the next
Find, FindAll, or Count call and reset to zero by that call regardless of the
store's response (the reset precedes the store call, so failure responses
reset it too); afterwards a subsequent Find applies no limit; FindOne never
consumes the pending limit. -/
theorem limit_single_use_spec :
    (∀ (mog : Mog) (n : Int), 0 < n →
      ∀ (criteria : Option BVal) (sortFlds : List String) (resp : FindResp)
        (req : FindReq) (mogA : Mog),
        Mog.Find (mog.SetLimit n) criteria sortFlds resp = some (req, mogA) →
        req.opts.limit = some n ∧ mogA.limit = 0)
  ∧ (∀ (mog : Mog) (n : Int), 0 < n →
      ∀ (criteria : Option BVal) (sortFlds : List String) (resp : FindResp)
        (allErr : Option String) (req : FindReq) (ret : Option String) (mogA : Mog),
        Mog.FindAll (mog.SetLimit n) criteria sortFlds resp allErr = some (req, ret, mogA) →
        req.opts.limit = some n ∧ mogA.limit = 0)
  ∧ (∀ (mog : Mog) (n : Int), 0 < n →
      ∀ (criteria : Option BVal) (resp : Int × Option String),
        (Mog.Count (mog.SetLimit n) criteria resp).1.limit = some n ∧
        (Mog.Count (mog.SetLimit n) criteria resp).2.2.limit = 0)
  ∧ (∀ mog : Mog, mog.limit = 0 →
      ∀ (criteria : Option BVal) (sortFlds : List String) (resp : FindResp)
        (req : FindReq) (mogA : Mog),
        Mog.Find mog criteria sortFlds resp = some (req, mogA) →
        req.opts.limit = none ∧ mogA.limit = 0)
  ∧ (∀ (mog : Mog) (criteria : Option BVal) (sortFlds : List String)
        (decodeErr : Option String) (req : FindOneReq)
        (ret : Option String) (mogA : Mog),
        Mog.FindOne mog criteria sortFlds decodeErr = some (req, ret, mogA) →
        mogA.limit = mog.limit) := by
  refine ⟨?_, ?_, ?_, ?_, ?_⟩
  · intro mog n hn criteria sortFlds resp req mogA h
    by_cases hl : sortFlds.length > 0
    · rcases hcs : CreateSortOrder sortFlds with _ | so
      · simp [Mog.Find, hl, hcs] at h
      · simp [Mog.Find, Mog.SetLimit, hl, hcs, hn] at h
        obtain ⟨h1, h2⟩ := h
        subst h1
        subst h2
        simp
    · simp [Mog.Find, Mog.SetLimit, hl, hn] at h
      obtain ⟨h1, h2⟩ := h
      subst h1
      subst h2
      simp
  · intro mog n hn criteria sortFlds resp allErr req ret mogA h
    by_cases hl : sortFlds.length > 0
    · rcases hcs : CreateSortOrder sortFlds with _ | so
      · simp [Mog.FindAll, hl, hcs] at h
      · simp [Mog.FindAll, Mog.SetLimit, hl, hcs, hn] at h
        obtain ⟨h1, h2, h3⟩ := h
        subst h1
        subst h3
        simp
    · simp [Mog.FindAll, Mog.SetLimit, hl, hn] at h
      obtain ⟨h1, h2, h3⟩ := h
      subst h1
      subst h3
      simp
  · intro mog n hn criteria resp
    constructor <;> simp [Mog.Count, Mog.SetLimit, hn]
  · intro mog hz criteria sortFlds resp req mogA h
    by_cases hl : sortFlds.length > 0
    · rcases hcs : CreateSortOrder sortFlds with _ | so
      · simp [Mog.Find, hl, hcs] at h
      · simp [Mog.Find, hl, hcs, hz] at h
        obtain ⟨h1, h2⟩ := h
        subst h1
        subst h2
        simp [hz]
    · simp [Mog.Find, hl, hz] at h
      obtain ⟨h1, h2⟩ := h
      subst h1
      subst h2
      simp [hz]
  · intro mog criteria sortFlds decodeErr req ret mogA h
    by_cases hl : sortFlds.length > 0
    · rcases hcs : CreateSortOrder sortFlds with _ | so
      · simp [Mog.FindOne, hl, hcs] at h
      · simp [Mog.FindOne, hl, hcs] at h
        obtain ⟨h1, h2, h3⟩ := h
        subst h3
        rfl
    · simp [Mog.FindOne, hl] at h
      obtain ⟨h1, h2, h3⟩ := h
      subst h3
      rfl

/-- C6 (witness): SetLimit 2 then Find on a fresh facade sends limit 2 and
leaves the stored limit at zero. -/
theorem limit_single_use_spec_witness :
    ({ criteria := BVal.doc [("", BVal.null)],
       opts := { limit := some 2 } } : FindReq).opts.limit = some 2
  ∧ ({} : Mog).limit = 0 := by
  exact limit_single_use_spec.1 {} 2 (by norm_num) none [] {} _ _ rfl

/-- C7: BulkWrite submits the accumulated batch of tagged operations in the
order they were added as one request; the pending batch is cleared
unconditionally (the clearing assignment precedes any read of the store's
result, so it happens on success and failure alike); on success it returns
the sum of the store-reported inserted and modified counts. -/
theorem bulkwrite_batch_spec :
    (∀ (mog : Mog) (size : Nat) (ops : List WriteModel)
        (resp : Option BulkResult × Option String),
      (Mog.BulkWrite (addOps (mog.BulkStart size) ops) resp).1 = ops)
  ∧ (∀ (mog : Mog) (resp : Option BulkResult × Option String),
      (Mog.BulkWrite mog resp).2.2.bulkWrites = [])
  ∧ (∀ (mog : Mog) (result : BulkResult),
      (Mog.BulkWrite mog (some result, none)).2.1
        = some (result.insertedCount + result.modifiedCount, none)) := by
  refine ⟨?_, ?_, ?_⟩
  · intro mog size ops resp
    simp [Mog.BulkWrite, addOps_bulkWrites, Mog.BulkStart]
  · intro mog resp
    simp [Mog.BulkWrite]
  · intro mog result
    simp [Mog.BulkWrite]

/-- C9: whenever the backing store returns an error together with a nil
result object, Update (with its criteria non-nil, so the store is reached)
and BulkWrite dereference that nil result to compute their returned counts
and panic (modelled as `none`) instead of returning the store's error; the
error-result branch is unguarded in both. -/
theorem update_bulkwrite_nil_result_panic :
    (∀ (mog : Mog) (criteria update : Option BVal) (e : Option String),
      criteria ≠ none → Mog.Update mog criteria update (none, e) = none)
  ∧ (∀ (mog : Mog) (e : Option String),
      (Mog.BulkWrite mog (none, e)).2.1 = none) := by
  constructor
  · intro mog criteria update e hc
    rcases criteria with _ | c
    · exact absurd rfl hc
    · simp [Mog.Update]
  · intro mog e
    simp [Mog.BulkWrite]

/-- C9 (witness): a concrete Update with non-nil criteria whose store response
is (nil result, error) panics rather than surfacing the error. -/
theorem update_bulkwrite_nil_result_panic_witness :
    Mog.Update {} (some (BVal.doc [])) none (none, some "network error") = none :=
  update_bulkwrite_nil_result_panic.1 {} (some (BVal.doc [])) none
    (some "network error") (by simp)

/-- C8 (spec-modelled optional result name): AggLookupIdOpt appends exactly
two stages to the pipeline, in order — a $lookup stage whose parameters bind
from = the foreign collection, localField = the local field, foreignField =
"_id", and as = the result name — immediately followed by an $unwind stage on
"$" + that result name; the result name defaults to the foreign collection's
name when the optional argument is omitted (`none`). -/
theorem agglookupid_stages_spec (mog : Mog) (fromCollection localField : String)
    (resultName : Option String) :
    ∃ parms,
      (mog.AggLookupIdOpt fromCollection localField resultName).AggPipeline
        = mog.AggPipeline ++
            [[("$lookup", BVal.doc parms)],
             [("$unwind", BVal.str ("$" ++ resultName.getD fromCollection))]]
      ∧ mapLookup parms "from" = some (BVal.str fromCollection)
      ∧ mapLookup parms "localField" = some (BVal.str localField)
      ∧ mapLookup parms "foreignField" = some (BVal.str "_id")
      ∧ mapLookup parms "as" = some (BVal.str (resultName.getD fromCollection)) := by
  refine ⟨[("from", BVal.str fromCollection), ("localField", BVal.str localField),
           ("foreignField", BVal.str "_id"),
           ("as", BVal.str (resultName.getD fromCollection))], ?_, rfl, rfl, rfl, rfl⟩
  simp [Mog.AggLookupIdOpt, Mog.AggLookupId, Mog.AggStage]

/-- C1 (counterexample): Find drops the store's error (the blank-identifier
assignment `cursor, _ :=`). At the concrete input below, a store response
carrying error "boom" and one carrying no error produce identical
caller-visible outcomes (same returned value, same post-state), so the error
cannot have been propagated to Find's immediate caller. -/
theorem find_discards_store_error :
    Mog.Find {} none [] { cursor := none, err := some "boom" }
      = Mog.Find {} none [] { cursor := none, err := none } := rfl

/-- C1 (amended): every store-contacting operation EXCEPT Find propagates the
store's error verbatim to its immediate caller whenever it returns normally —
FindAll returns the find error when one occurred and otherwise the
decode-all error, FindOne/FindId return the decode error, Count returns the
store pair verbatim, Update (non-nil criteria, non-nil result) and BulkWrite
(non-nil result) return the store error alongside their counts, and Replace,
UpdateId, Insert and AggRun return it directly — while Find's outcome is
independent of the store's error, which it discards. -/
theorem store_error_propagation_amended :
    (∀ (mog : Mog) (criteria : Option BVal) (sortFlds : List String)
        (c : Option Cursor) (e eA : Option String),
      Mog.Find mog criteria sortFlds { cursor := c, err := e }
        = Mog.Find mog criteria sortFlds { cursor := c, err := eA })
  ∧ (∀ (mog : Mog) (criteria : Option BVal) (sortFlds : List String)
        (c : Option Cursor) (x : String) (allErr : Option String)
        (req : FindReq) (ret : Option String) (mogA : Mog),
      Mog.FindAll mog criteria sortFlds { cursor := c, err := some x } allErr
          = some (req, ret, mogA) →
      ret = some x)
  ∧ (∀ (mog : Mog) (criteria : Option BVal) (sortFlds : List String)
        (c : Option Cursor) (allErr : Option String)
        (req : FindReq) (ret : Option String) (mogA : Mog),
      Mog.FindAll mog criteria sortFlds { cursor := c, err := none } allErr
          = some (req, ret, mogA) →
      ret = allErr)
  ∧ (∀ (mog : Mog) (criteria : Option BVal) (sortFlds : List String)
        (decodeErr : Option String) (req : FindOneReq)
        (ret : Option String) (mogA : Mog),
      Mog.FindOne mog criteria sortFlds decodeErr = some (req, ret, mogA) →
      ret = decodeErr)
  ∧ (∀ (mog : Mog) (docId : BVal) (decodeErr : Option String),
      (Mog.FindId mog docId decodeErr).2.1 = decodeErr)
  ∧ (∀ (mog : Mog) (criteria : Option BVal) (resp : Int × Option String),
      (Mog.Count mog criteria resp).2.1 = resp)
  ∧ (∀ (mog : Mog) (criteria update : Option BVal) (r : UpdateResult)
        (e : Option String),
      criteria ≠ none →
      ∃ mogA, Mog.Update mog criteria update (some r, e)
        = some ((r.modifiedCount + r.upsertedCount, e), mogA))
  ∧ (∀ (mog : Mog) (criteria newDoc : Option BVal) (e : Option String),
      (Mog.Replace mog criteria newDoc e).1 = e)
  ∧ (∀ (mog : Mog) (docId update : BVal) (e : Option String),
      (Mog.UpdateId mog docId update e).2.1 = e)
  ∧ (∀ (mog : Mog) (docs : List BVal) (e : Option String),
      (Mog.Insert mog docs e).1 = e)
  ∧ (∀ (mog : Mog) (r : BulkResult) (e : Option String),
      (Mog.BulkWrite mog (some r, e)).2.1
        = some (r.insertedCount + r.modifiedCount, e))
  ∧ (∀ (mog : Mog) (resp : FindResp), (Mog.AggRun mog resp).1 = resp.err) := by
  refine ⟨?_, ?_, ?_, ?_, ?_, ?_, ?_, ?_, ?_, ?_, ?_, ?_⟩
  · intro mog criteria sortFlds c e eA
    rfl
  · intro mog criteria sortFlds c x allErr req ret mogA h
    by_cases hl : sortFlds.length > 0
    · rcases hcs : CreateSortOrder sortFlds with _ | so
      · simp [Mog.FindAll, hl, hcs] at h
      · simp [Mog.FindAll, hl, hcs] at h
        exact h.2.1.symm
    · simp [Mog.FindAll, hl] at h
      exact h.2.1.symm
  · intro mog criteria sortFlds c allErr req ret mogA h
    by_cases hl : sortFlds.length > 0
    · rcases hcs : CreateSortOrder sortFlds with _ | so
      · simp [Mog.FindAll, hl, hcs] at h
      · simp [Mog.FindAll, hl, hcs] at h
        exact h.2.1.symm
    · simp [Mog.FindAll, hl] at h
      exact h.2.1.symm
  · intro mog criteria sortFlds decodeErr req ret mogA h
    by_cases hl : sortFlds.length > 0
    · rcases hcs : CreateSortOrder sortFlds with _ | so
      · simp [Mog.FindOne, hl, hcs] at h
      · simp [Mog.FindOne, hl, hcs] at h
        exact h.2.1.symm
    · simp [Mog.FindOne, hl] at h
      exact h.2.1.symm
  · intro mog docId decodeErr
    rfl
  · intro mog criteria resp
    rfl
  · intro mog criteria update r e hc
    rcases criteria with _ | cv
    · exact absurd rfl hc
    · exact ⟨if mog.upsert then { mog with upsert := false } else mog, rfl⟩
  · intro mog criteria newDoc e
    rfl
  · intro mog docId update e
    rfl
  · intro mog docs e
    rfl
  · intro mog r e
    rfl
  · intro mog resp
    rfl

/-- C1 (amended, witness): Update with non-nil criteria and a non-nil store
result surfaces the store's error "write conflict" verbatim next to the
modified+upserted count. -/
theorem store_error_propagation_amended_witness :
    ∃ mogA, Mog.Update {} (some (BVal.doc [])) none
        (some { modifiedCount := 2, upsertedCount := 1 }, some "write conflict")
      = some ((2 + 1, some "write conflict"), mogA) :=
  store_error_propagation_amended.2.2.2.2.2.2.1 {} (some (BVal.doc [])) none
    { modifiedCount := 2, upsertedCount := 1 } (some "write conflict") (by simp)

/-- Running the Next loop with fuel `recs.length + 1` always terminates through
the false branch and ends with IterErr holding the first decode error, or the
cursor's terminal error when all records decode. -/
theorem nextLoopFuel_run :
    ∀ (l : List DecodeOutcome) (mog : Mog) (cur : Cursor),
      mog.iter = some cur → cur.recs = l →
      ∃ mogF, nextLoopFuel (l.length + 1) mog = some mogF ∧
        mogF.iterErr = firstBadOr l cur.termErr := by
  intro l
  induction l with
  | nil =>
    intro mog cur hi hr
    refine ⟨{ mog with iterErr := cur.termErr,
                       iter := some { cur with closed := true } }, ?_, ?_⟩
    · simp [nextLoopFuel, Mog.Next, hi, hr]
    · simp [firstBadOr]
  | cons r rest ih =>
    intro mog cur hi hr
    cases r with
    | ok =>
      have hstep : Mog.Next mog
          = some (true, { mog with iter := some { cur with recs := rest } }) := by
        simp [Mog.Next, hi, hr]
      obtain ⟨mogF, h1, h2⟩ :=
        ih { mog with iter := some { cur with recs := rest } }
           { cur with recs := rest } rfl rfl
      refine ⟨mogF, ?_, ?_⟩
      · simp [nextLoopFuel, hstep]
        simp [nextLoopFuel] at h1
        exact h1
      · simpa [firstBadOr] using h2
    | bad e =>
      refine ⟨{ mog with iterErr := some e,
                         iter := some { cur with recs := rest } }, ?_, ?_⟩
      · simp [nextLoopFuel, Mog.Next, hi, hr]
      · simp [firstBadOr]

/-- C3: with a live iterator, (i) at stream exhaustion Next stores the
cursor's terminal error (nil on clean exhaustion) in the held iteration-error
field, closes the cursor, and returns false; (ii) at a record whose decode
fails, Next captures that decode error into the held field and returns false,
leaving the remaining records unread (and the cursor open); and (iii) the
`for Next` loop always terminates with IterErr = nil exactly when iteration
ended by clean exhaustion (every record decoded and no terminal error). -/
theorem next_exhaustion_and_decode_spec (mog : Mog) (cur : Cursor)
    (h : mog.iter = some cur) :
    (cur.recs = [] →
      Mog.Next mog = some (false,
        { mog with iterErr := cur.termErr, iter := some { cur with closed := true } }))
  ∧ (∀ (e : String) (rest : List DecodeOutcome),
      cur.recs = DecodeOutcome.bad e :: rest →
      Mog.Next mog = some (false,
        { mog with iterErr := some e, iter := some { cur with recs := rest } }))
  ∧ (∃ mogF, nextLoop mog = some mogF ∧
      (Mog.IterErr mogF = none ↔
        (∀ r ∈ cur.recs, r = DecodeOutcome.ok) ∧ cur.termErr = none)) := by
  refine ⟨?_, ?_, ?_⟩
  · intro h0
    simp [Mog.Next, h, h0]
  · intro e rest h0
    simp [Mog.Next, h, h0]
  · obtain ⟨mogF, h1, h2⟩ := nextLoopFuel_run cur.recs mog cur h rfl
    refine ⟨mogF, ?_, ?_⟩
    · simp [nextLoop, iterLen, h, h1]
    · simp only [Mog.IterErr]
      rw [h2, firstBadOr_eq_none]

/-- C3 (witness): a concrete stream whose second record fails to decode — the
loop runs, and IterErr is non-nil (the left-hand side of the iff is false
because the bad record is present). -/
theorem next_exhaustion_and_decode_spec_witness :
    ∃ mogF,
      nextLoop { iter := some { recs := [DecodeOutcome.ok, DecodeOutcome.bad "decode fail"] } }
        = some mogF ∧
      (Mog.IterErr mogF = none ↔
        (∀ r ∈ ({ recs := [DecodeOutcome.ok, DecodeOutcome.bad "decode fail"] } : Cursor).recs,
            r = DecodeOutcome.ok)
          ∧ ({ recs := [DecodeOutcome.ok, DecodeOutcome.bad "decode fail"] } : Cursor).termErr = none) :=
  (next_exhaustion_and_decode_spec
    { iter := some { recs := [DecodeOutcome.ok, DecodeOutcome.bad "decode fail"] } }
    { recs := [DecodeOutcome.ok, DecodeOutcome.bad "decode fail"] } rfl).2.2
